import Mathlib

/-!
Verification of the rate-limiting and AI-dispatch core of the DiscordAI bot
(`src/DiscordAI/main.py`).

Modelling choices (shallow embedding):
* `time.time()` returns a float; timestamps and window lengths are embedded as
  rationals (`ℚ`), which faithfully support the ordering and subtraction the
  code performs.
* `check_spam(user_id, message_times_dict, time_window, message_limit)` reads
  and writes `message_times_dict[user_id]`; the embedding takes that per-key
  list explicitly and returns the updated list together with the boolean
  result.  The `defaultdict(list)` start state for a fresh key is the caller
  passing `[]`.  The current time `now` is passed as an explicit argument.
* Discord side effects (`ctx.send`, `ctx.defer`, `ctx.followup.send`, the
  network call to a provider) are embedded as an ordered event list; the
  provider's answer is an oracle argument `Backend → Except err text`.
* Python strings are embedded as `List Char` (one `Char` per code point,
  matching Python's per-code-point indexing and slicing).
-/

/-- From `check_spam` in `main.py` (lines 101-108): prune the user's stored
timestamps to those with `now - t < time_window`, append `now`, store the
result back, and report spam iff the stored length exceeds `message_limit`.
Returns (updated stored list, spam flag); the caller treats a `false` flag as
admission. -/
def check_spam (user_times : List ℚ) (time_window : ℚ) (message_limit : ℕ)
    (now : ℚ) : List ℚ × Bool :=
  let pruned := user_times.filter fun t => decide (now - t < time_window)
  let updated := pruned ++ [now]
  (updated, decide (updated.length > message_limit))

/-- Constant `SPAM_TIME_WINDOW = 10` seconds (`main.py` line 69). -/
def SPAM_TIME_WINDOW : ℚ := 10

/-- Constant `SPAM_MESSAGE_LIMIT = 5` messages per window (`main.py` line 70). -/
def SPAM_MESSAGE_LIMIT : ℕ := 5

/-- Constant `AI_TIME_WINDOW = 60` seconds (`main.py` line 74). -/
def AI_TIME_WINDOW : ℚ := 60

/-- Constant `AI_MESSAGE_LIMIT = 3` AI requests per window (`main.py` line 75). -/
def AI_MESSAGE_LIMIT : ℕ := 3

/-- Run a sequence of admission checks for one key, threading the stored
timestamp list exactly as the dict entry is threaded between calls of
`check_spam`.  Returns the final stored list and the list of spam flags, in
call order. -/
def runCalls (time_window : ℚ) (message_limit : ℕ) (st : List ℚ) :
    List ℚ → List ℚ × List Bool
  | [] => (st, [])
  | t :: ts =>
    let r := check_spam st time_window message_limit t
    let rest := runCalls time_window message_limit r.1 ts
    (rest.1, r.2 :: rest.2)

/-- When no stored timestamp is stale, the pruning step keeps everything. -/
theorem check_spam_keep_all (s : List ℚ) (W : ℚ) (L : ℕ) (now : ℚ)
    (h : ∀ t ∈ s, now - t < W) :
    check_spam s W L now = (s ++ [now], decide (L < s.length + 1)) := by
  unfold check_spam
  have hf : (s.filter fun t => decide (now - t < W)) = s :=
    List.filter_eq_self.mpr fun t ht => decide_eq_true (h t ht)
  simp [hf]

/-- Running calls that all lie inside one window keeps every timestamp and
produces spam flags that depend only on the running count. -/
theorem runCalls_spec (W : ℚ) (L : ℕ) :
    ∀ (times s : List ℚ),
      (∀ x ∈ s, ∀ t ∈ times, t - x < W) →
      (∀ a ∈ times, ∀ b ∈ times, b - a < W) →
      runCalls W L s times =
        (s ++ times,
         (List.range times.length).map fun i => decide (L < s.length + i + 1)) := by
  intro times
  induction times with
  | nil => intro s _ _; simp [runCalls]
  | cons t ts ih =>
    intro s hcross hspan
    have hstep : check_spam s W L t = (s ++ [t], decide (L < s.length + 1)) :=
      check_spam_keep_all s W L t fun x hx =>
        hcross x hx t (List.mem_cons_self t ts)
    have hrest := ih (s ++ [t])
      (by
        intro x hx u hu
        rcases List.mem_append.mp hx with hxs | hxt
        · exact hcross x hxs u (List.mem_cons_of_mem t hu)
        · have hx' : x = t := by simpa using hxt
          subst hx'
          exact hspan x (List.mem_cons_self x ts) u (List.mem_cons_of_mem x hu))
      (by
        intro a ha b hb
        exact hspan a (List.mem_cons_of_mem t ha) b (List.mem_cons_of_mem t hb))
    simp only [runCalls, hstep, hrest]
    rw [Prod.mk.injEq]
    constructor
    · simp
    · rw [List.length_cons, List.range_succ_eq_map, List.map_cons, List.map_map,
        List.cons.injEq]
      constructor
      · exact decide_eq_decide.mpr (by omega)
      · apply List.map_congr_left
        intro i _
        simp only [Function.comp, List.length_append, List.length_cons,
          List.length_nil]
        exact decide_eq_decide.mpr (by omega)

/-- Claim C1: a single admission check takes the current time `now`, removes
from the key's stored sequence every timestamp `t` with `now - t ≥ W`, appends
`now`, stores the result back, and admits (spam flag `false`) iff the stored
length is at most `L`; consequently, for a key's call sequence lying inside
one rolling `W`-second span (in particular with no gap of `W` or more between
calls), the first `L` calls are admitted and every later call is rejected. -/
theorem check_spam_admission_policy (s : List ℚ) (W : ℚ) (L : ℕ) (now : ℚ)
    (times : List ℚ) (hsorted : times.Sorted (· ≤ ·))
    (hspan : ∀ a ∈ times, ∀ b ∈ times, b - a < W) :
    ((check_spam s W L now).1
        = (s.filter fun t => decide ¬(W ≤ now - t)) ++ [now]
      ∧ ((check_spam s W L now).2 = false
          ↔ (check_spam s W L now).1.length ≤ L))
    ∧ runCalls W L [] times
        = (times, (List.range times.length).map fun i => decide (L < i + 1)) := by
  refine ⟨⟨?_, ?_⟩, ?_⟩
  · unfold check_spam
    simp only []
    congr 1
    apply List.filter_congr
    intro t _
    exact decide_eq_decide.mpr (not_le).symm
  · simp [check_spam, Nat.not_lt]
  · have h := runCalls_spec W L times [] (by intro x hx; simp at hx) hspan
    rw [h, Prod.mk.injEq]
    constructor
    · simp
    · apply List.map_congr_left
      intro i _
      simp only [List.length_nil]
      exact decide_eq_decide.mpr (by omega)

/-- Witness for C1 at a concrete input: four calls at times 0,1,2,3 with
window 60 and limit 3; the first three are admitted, the fourth rejected. -/
theorem check_spam_admission_policy_witness :
    ([(0 : ℚ), 1, 2, 3].Sorted (· ≤ ·)
      ∧ (∀ a ∈ [(0 : ℚ), 1, 2, 3], ∀ b ∈ [(0 : ℚ), 1, 2, 3], b - a < 60))
    ∧ runCalls 60 3 [] [(0 : ℚ), 1, 2, 3]
        = ([(0 : ℚ), 1, 2, 3],
           (List.range ([(0 : ℚ), 1, 2, 3]).length).map fun i => decide (3 < i + 1)) :=
  ⟨⟨by decide, by norm_num⟩,
    (check_spam_admission_policy [] 60 3 0 [(0 : ℚ), 1, 2, 3]
      (by decide) (by norm_num)).2⟩

/-- Every timestamp stored after a run of admission checks is either an
initial timestamp or one of the call times. -/
theorem runCalls_state_subset (W : ℚ) (L : ℕ) :
    ∀ (times s : List ℚ) (x : ℚ),
      x ∈ (runCalls W L s times).1 → x ∈ s ∨ x ∈ times := by
  intro times
  induction times with
  | nil => intro s x hx; exact Or.inl (by simpa [runCalls] using hx)
  | cons t ts ih =>
    intro s x hx
    simp only [runCalls] at hx
    rcases ih _ x hx with hmem | hmem
    · have h' : (x ∈ s ∧ t - x < W) ∨ x = t := by simpa [check_spam] using hmem
      rcases h' with ⟨hs', _⟩ | he
      · exact Or.inl hs'
      · subst he
        exact Or.inr (List.mem_cons_self x ts)
    · exact Or.inr (List.mem_cons_of_mem t hmem)

/-- Claim C7: after a gap of at least `W` seconds with no admission calls for
a key, the next call is admitted whenever `1 ≤ L`, and its outcome (result and
stored state) is exactly that of a call on a fresh key: all history older than
the window is irrelevant. -/
theorem check_spam_window_reset (hist : List ℚ) (W : ℚ) (L : ℕ) (now : ℚ)
    (hL : 1 ≤ L) (hgap : ∀ t ∈ hist, W ≤ now - t) :
    check_spam (runCalls W L [] hist).1 W L now = ([now], false)
    ∧ check_spam (runCalls W L [] hist).1 W L now = check_spam [] W L now := by
  have hfil : ((runCalls W L [] hist).1.filter
      fun t => decide (now - t < W)) = [] := by
    rw [List.filter_eq_nil_iff]
    intro a ha
    rcases runCalls_state_subset W L hist [] a ha with h | h
    · simp at h
    · simpa using not_lt.mpr (hgap a h)
  have h1 : check_spam (runCalls W L [] hist).1 W L now = ([now], false) := by
    unfold check_spam
    rw [hfil]
    simp only [List.nil_append, List.length_cons, List.length_nil, gt_iff_lt,
      Prod.mk.injEq, true_and]
    exact decide_eq_false (by omega)
  have h2 : check_spam ([] : List ℚ) W L now = ([now], false) := by
    unfold check_spam
    simp only [List.filter_nil, List.nil_append, List.length_cons,
      List.length_nil, gt_iff_lt, Prod.mk.injEq, true_and]
    exact decide_eq_false (by omega)
  exact ⟨h1, by rw [h1, h2]⟩

/-- Witness for C7 at a concrete input: one prior call at time 0, window 60,
limit 3; the next call at time 60 is admitted and behaves like a fresh key. -/
theorem check_spam_window_reset_witness :
    (1 ≤ 3 ∧ ∀ t ∈ [(0 : ℚ)], (60 : ℚ) ≤ 60 - t)
    ∧ (check_spam (runCalls 60 3 [] [(0 : ℚ)]).1 60 3 60 = ([60], false)
       ∧ check_spam (runCalls 60 3 [] [(0 : ℚ)]).1 60 3 60
           = check_spam [] 60 3 60) :=
  ⟨⟨by decide, by norm_num⟩,
    check_spam_window_reset [(0 : ℚ)] 60 3 60 (by decide) (by norm_num)⟩

/-- Claim C8: every admission check appends exactly one timestamp (the
current time) to the pruned stored sequence, whether the call is admitted or
rejected (`now` is stored in both cases, so the over-limit call is still
recorded); the rejection flag holds iff the stored length exceeds the limit;
after the check every retained timestamp `t` satisfies `now - t < W`; and with
monotone time the stored sequence stays non-decreasing in append order. -/
theorem check_spam_invariants (s : List ℚ) (W : ℚ) (L : ℕ) (now : ℚ)
    (hW : 0 < W) (hsort : s.Sorted (· ≤ ·)) (hle : ∀ t ∈ s, t ≤ now) :
    (check_spam s W L now).1
        = (s.filter fun t => decide (now - t < W)) ++ [now]
    ∧ now ∈ (check_spam s W L now).1
    ∧ ((check_spam s W L now).2 = true ↔ L < (check_spam s W L now).1.length)
    ∧ (∀ t ∈ (check_spam s W L now).1, now - t < W)
    ∧ (check_spam s W L now).1.Sorted (· ≤ ·) := by
  refine ⟨rfl, by simp [check_spam], by simp [check_spam], ?_, ?_⟩
  · intro t ht
    rcases List.mem_append.mp ht with h | h
    · exact of_decide_eq_true (List.mem_filter.mp h).2
    · have : t = now := by simpa using h
      subst this
      simpa using hW
  · refine List.pairwise_append.mpr ⟨hsort.filter _, List.pairwise_singleton _ _, ?_⟩
    intro a ha b hb
    have hb' : b = now := by simpa using hb
    subst hb'
    exact hle a (List.mem_of_mem_filter ha)

/-- Witness for C8 at a concrete input: one stored timestamp 0, window 10,
limit 5, current time 1. -/
theorem check_spam_invariants_witness :
    ((0 : ℚ) < 10 ∧ [(0 : ℚ)].Sorted (· ≤ ·) ∧ (∀ t ∈ [(0 : ℚ)], t ≤ (1 : ℚ)))
    ∧ ((check_spam [(0 : ℚ)] 10 5 1).1
          = ([(0 : ℚ)].filter fun t => decide ((1 : ℚ) - t < 10)) ++ [1]
       ∧ (1 : ℚ) ∈ (check_spam [(0 : ℚ)] 10 5 1).1
       ∧ ((check_spam [(0 : ℚ)] 10 5 1).2 = true
            ↔ 5 < (check_spam [(0 : ℚ)] 10 5 1).1.length)
       ∧ (∀ t ∈ (check_spam [(0 : ℚ)] 10 5 1).1, (1 : ℚ) - t < 10)
       ∧ (check_spam [(0 : ℚ)] 10 5 1).1.Sorted (· ≤ ·)) :=
  ⟨⟨by decide, by decide, by decide⟩,
    check_spam_invariants [(0 : ℚ)] 10 5 1 (by decide) (by decide) (by decide)⟩

/-- The two AI backends selectable by the `ai` command (`main.py` line 184). -/
inductive Backend
  | chatgpt
  | gemini
deriving DecidableEq

/-- The lower-case selector string each backend is matched against
(`main.py` line 184). -/
def selectorOf : Backend → List Char
  | Backend.chatgpt => "chatgpt".data
  | Backend.gemini => "gemini".data

/-- Embedding of `ai_model.title()` as used in the reply labels (`main.py` lines 231, 235,
239): Python title-cases the validated lower-case selector. -/
def titleOf : Backend → List Char
  | Backend.chatgpt => "Chatgpt".data
  | Backend.gemini => "Gemini".data

/-- Availability of each backend, fixed at startup from the presence of the
credential: `openai_client` is non-None iff `OPENAI_API_KEY` was set
(`main.py` lines 45-47), and Gemini is available iff `GEMINI_API_KEY` was set
(`main.py` lines 52-56, 198). -/
def availableOf (openai_client GEMINI_API_KEY : Bool) : Backend → Bool
  | Backend.chatgpt => openai_client
  | Backend.gemini => GEMINI_API_KEY

/-- The invalid-model notice (`main.py` line 185). -/
def invalidModelMsg : List Char :=
  "❌ Invalid AI model. Use `chatgpt` or `gemini`.".data

/-- The AI throttle notice (`main.py` line 190). -/
def throttleMsg : List Char :=
  "🚫 You\x27re making too many AI requests. Please wait a minute.".data

/-- The display name appearing in each unavailable notice
(`main.py` lines 195, 199). -/
def displayNameOf : Backend → List Char
  | Backend.chatgpt => "ChatGPT".data
  | Backend.gemini => "Gemini".data

/-- The unavailable notices (`main.py` lines 195, 199), written with the
backend display name as an explicit middle segment. -/
def unavailMsgOf (b : Backend) : List Char :=
  "❌ ".data ++ displayNameOf b ++ " is not available (API key missing).".data

/-- The label put in front of the first reply chunk,
`f"🤖 **{ai_model.title()}**: "` (`main.py` lines 231, 235). -/
def botLabel (b : Backend) : List Char :=
  "🤖 **".data ++ titleOf b ++ "**: ".data

/-- The error reply `f"⚠️ Error communicating with {ai_model.title()}: "`
followed by the diagnostic truncated to 100 characters, `str(e)[:100]`
(`main.py` line 239). -/
def errMsgOf (b : Backend) (e : List Char) : List Char :=
  "⚠️ Error communicating with ".data ++ titleOf b ++ ": ".data ++ e.take 100

/-- The fixed-size cuts `ai_response[i:i+1900]` for
`i in range(0, len(ai_response), 1900)` (`main.py` lines 228-229). -/
def chunksOf : List Char → List (List Char)
  | [] => []
  | c :: rest =>
    (c :: rest).take 1900 :: chunksOf ((c :: rest).drop 1900)
termination_by s => s.length
decreasing_by
  simp only [List.length_drop, List.length_cons]
  omega

/-- The messages sent on the success path (`main.py` lines 226-235): a
response longer than 2000 characters is sent as its 1900-character cuts with
the label prepended to the first cut only; otherwise the whole response is
sent as one labelled message. -/
def successMessages (b : Backend) (ai_response : List Char) : List (List Char) :=
  if 2000 < ai_response.length then
    match chunksOf ai_response with
    | [] => []
    | c :: cs => (botLabel b ++ c) :: cs
  else
    [botLabel b ++ ai_response]

/-- Discord-visible effects of one `ai` command invocation, in order:
an ephemeral `ctx.send`, the `ctx.defer()` acknowledgment, the provider
network call, and a `ctx.followup.send`. -/
inductive AIEvent
  | sendEphemeral (msg : List Char)
  | ack
  | invoke (b : Backend)
  | followup (msg : List Char)
deriving DecidableEq

/-- The `ai` command handler (`main.py` lines 173-239) as a pure function.
Inputs: the two availability flags fixed at startup, the caller's stored AI
timestamps `user_ai_times[ctx.author.id]`, the current time, the raw
`ai_model` argument, and an oracle giving each backend's answer
(`Except.error` embeds a raised exception's `str(e)`).  Output: the ordered
event list and the caller's stored AI timestamp list afterwards. -/
def ai_command (openai_client GEMINI_API_KEY : Bool) (user_ai_times : List ℚ)
    (now : ℚ) (ai_model : List Char)
    (backendResult : Backend → Except (List Char) (List Char)) :
    List AIEvent × List ℚ :=
  let m := ai_model.map Char.toLower
  if m ≠ "chatgpt".data ∧ m ≠ "gemini".data then
    ([AIEvent.sendEphemeral invalidModelMsg], user_ai_times)
  else
    let r := check_spam user_ai_times AI_TIME_WINDOW AI_MESSAGE_LIMIT now
    if r.2 then
      ([AIEvent.sendEphemeral throttleMsg], r.1)
    else if m = "chatgpt".data ∧ openai_client = false then
      ([AIEvent.sendEphemeral (unavailMsgOf Backend.chatgpt)], r.1)
    else if m = "gemini".data ∧ GEMINI_API_KEY = false then
      ([AIEvent.sendEphemeral (unavailMsgOf Backend.gemini)], r.1)
    else
      let b := if m = "chatgpt".data then Backend.chatgpt else Backend.gemini
      match backendResult b with
      | Except.ok text =>
        ([AIEvent.ack, AIEvent.invoke b]
          ++ (successMessages b text).map AIEvent.followup, r.1)
      | Except.error e =>
        ([AIEvent.ack, AIEvent.invoke b, AIEvent.followup (errMsgOf b e)], r.1)

/-- Unfolding `chunksOf` on a non-empty list. -/
theorem chunksOf_ne_nil_eq (s : List Char) (h : s ≠ []) :
    chunksOf s = s.take 1900 :: chunksOf (s.drop 1900) := by
  cases s with
  | nil => exact absurd rfl h
  | cons c rest => rw [chunksOf]

/-- Evaluation of `chunksOf` on the empty list. -/
theorem chunksOf_nil : chunksOf [] = [] := by
  rw [chunksOf]

/-- Every cut produced by `chunksOf` has at most 1900 characters
(fuel-indexed form for induction on the length). -/
theorem chunksOf_length_le_aux :
    ∀ (n : ℕ) (s : List Char), s.length ≤ n → ∀ c ∈ chunksOf s, c.length ≤ 1900 := by
  intro n
  induction n with
  | zero =>
    intro s hs c hc
    have : s = [] := List.length_eq_zero.mp (Nat.le_zero.mp hs)
    subst this
    rw [chunksOf_nil] at hc
    simp at hc
  | succ n ih =>
    intro s hs c hc
    cases s with
    | nil =>
      rw [chunksOf_nil] at hc
      simp at hc
    | cons a rest =>
      rw [chunksOf_ne_nil_eq _ (by simp)] at hc
      rcases List.mem_cons.mp hc with rfl | hc'
      · rw [List.length_take]
        omega
      · refine ih ((a :: rest).drop 1900) ?_ c hc'
        rw [List.length_drop]
        simp only [List.length_cons] at hs ⊢
        omega

/-- Every cut produced by `chunksOf` has at most 1900 characters. -/
theorem chunksOf_length_le (s c : List Char) (h : c ∈ chunksOf s) :
    c.length ≤ 1900 :=
  chunksOf_length_le_aux s.length s le_rfl c h

/-- Claim C2 (amended): on the success path every cut of the response has at
most 1900 characters and the label prepended to the first message has at most
15 characters, so when the response exceeds 2000 characters every outbound
message has at most label-length + 1900 ≤ 1915 characters; but a response of
length at most 2000 is sent whole behind the label, so an outbound message can
reach label-length + 2000 characters — in particular it can exceed both 1900
and the 2000-character transport cap. -/
theorem ai_success_message_bounds (b : Backend) (resp m : List Char)
    (hm : m ∈ successMessages b resp) :
    (botLabel b).length ≤ 15
    ∧ m.length ≤ (botLabel b).length + 2000
    ∧ (2000 < resp.length → m.length ≤ (botLabel b).length + 1900) := by
  have hlab : (botLabel b).length ≤ 15 := by cases b <;> decide
  by_cases h2000 : 2000 < resp.length
  · have hne : resp ≠ [] := by
      intro hn
      rw [hn] at h2000
      simp at h2000
    obtain ⟨c, cs, hc⟩ : ∃ c cs, chunksOf resp = c :: cs :=
      ⟨_, _, chunksOf_ne_nil_eq resp hne⟩
    rw [successMessages, if_pos h2000, hc] at hm
    have hm' : m = botLabel b ++ c ∨ m ∈ cs := by simpa using hm
    have hbound : m.length ≤ (botLabel b).length + 1900 := by
      rcases hm' with rfl | hmc
      · have hcl : c.length ≤ 1900 :=
          chunksOf_length_le resp c (by rw [hc]; exact List.mem_cons_self c cs)
        rw [List.length_append]
        omega
      · have : m.length ≤ 1900 :=
          chunksOf_length_le resp m (by rw [hc]; exact List.mem_cons_of_mem c hmc)
        omega
    exact ⟨hlab, by omega, fun _ => hbound⟩
  · rw [successMessages, if_neg h2000] at hm
    have hm' : m = botLabel b ++ resp := by simpa using hm
    subst hm'
    refine ⟨hlab, ?_, fun hcon => absurd hcon h2000⟩
    rw [List.length_append]
    omega

/-- Witness for C2 (amended) at a concrete input: a 10-character response via
ChatGPT is one labelled message within the bounds. -/
theorem ai_success_message_bounds_witness :
    (botLabel Backend.chatgpt ++ List.replicate 10 'a')
        ∈ successMessages Backend.chatgpt (List.replicate 10 'a')
    ∧ ((botLabel Backend.chatgpt).length ≤ 15
       ∧ (botLabel Backend.chatgpt ++ List.replicate 10 'a').length
           ≤ (botLabel Backend.chatgpt).length + 2000
       ∧ (2000 < (List.replicate 10 'a').length
            → (botLabel Backend.chatgpt ++ List.replicate 10 'a').length
                ≤ (botLabel Backend.chatgpt).length + 1900)) :=
  ⟨by
      rw [successMessages, if_neg (by rw [List.length_replicate]; norm_num)]
      exact List.mem_singleton_self _,
    ai_success_message_bounds Backend.chatgpt (List.replicate 10 'a') _
      (by
        rw [successMessages, if_neg (by rw [List.length_replicate]; norm_num)]
        exact List.mem_singleton_self _)⟩

/-- Counterexample to C2 as stated: a 2000-character ChatGPT response (within
the 2000-character cap, so not split) is sent as a single labelled message of
2015 characters, which is larger than 1900. -/
theorem ai_success_message_over_1900 :
    (successMessages Backend.chatgpt (List.replicate 2000 'a')).map List.length
      = [2015]
    ∧ ¬ ∀ m ∈ successMessages Backend.chatgpt (List.replicate 2000 'a'),
          m.length ≤ 1900 := by
  have hl : (botLabel Backend.chatgpt).length = 15 := by decide
  have h : successMessages Backend.chatgpt (List.replicate 2000 'a')
      = [botLabel Backend.chatgpt ++ List.replicate 2000 'a'] := by
    rw [successMessages, if_neg (by rw [List.length_replicate]; norm_num)]
  constructor
  · rw [h]
    simp only [List.map_cons, List.map_nil, List.length_append,
      List.length_replicate, hl]
  · intro hall
    have h1 := hall (botLabel Backend.chatgpt ++ List.replicate 2000 'a')
      (by rw [h]; exact List.mem_singleton_self _)
    rw [List.length_append, List.length_replicate, hl] at h1
    omega

/-- Claim C3: a 5000-character response is cut into exactly the three slices
`[0:1900]`, `[1900:3800]`, `[3800:5000]` of sizes 1900, 1900, 1200, and the
success path sends them in that order with the backend label prepended to the
first message only. -/
theorem ai_chunking_5000 (b : Backend) (resp : List Char)
    (h : resp.length = 5000) :
    chunksOf resp
        = [resp.take 1900, (resp.drop 1900).take 1900, resp.drop 3800]
    ∧ (chunksOf resp).map List.length = [1900, 1900, 1200]
    ∧ successMessages b resp
        = [botLabel b ++ resp.take 1900, (resp.drop 1900).take 1900,
           resp.drop 3800] := by
  have h0 : resp ≠ [] := by
    intro hn
    rw [hn] at h
    simp at h
  have hd1 : (resp.drop 1900).length = 3100 := by rw [List.length_drop, h]
  have hd2 : (resp.drop 3800).length = 1200 := by rw [List.length_drop, h]
  have h1 : resp.drop 1900 ≠ [] := by
    intro hn
    rw [hn] at hd1
    simp at hd1
  have h3 : resp.drop 3800 ≠ [] := by
    intro hn
    rw [hn] at hd2
    simp at hd2
  have hdd : (resp.drop 1900).drop 1900 = resp.drop 3800 := by
    rw [List.drop_drop]
  have ht3 : (resp.drop 3800).take 1900 = resp.drop 3800 :=
    List.take_of_length_le (by rw [hd2]; norm_num)
  have he : (resp.drop 3800).drop 1900 = [] :=
    List.drop_eq_nil_of_le (by rw [hd2]; norm_num)
  have hchunks : chunksOf resp
      = [resp.take 1900, (resp.drop 1900).take 1900, resp.drop 3800] := by
    rw [chunksOf_ne_nil_eq resp h0, chunksOf_ne_nil_eq _ h1, hdd,
      chunksOf_ne_nil_eq _ h3, ht3, he, chunksOf_nil]
  have hlen : (chunksOf resp).map List.length = [1900, 1900, 1200] := by
    rw [hchunks]
    simp only [List.map_cons, List.map_nil, List.length_take, hd2]
    rw [h, hd1]
    norm_num
  refine ⟨hchunks, hlen, ?_⟩
  rw [successMessages, if_pos (by rw [h]; norm_num), hchunks]

/-- Witness for C3 at a concrete input: the 5000-character response made of
the letter a. -/
theorem ai_chunking_5000_witness :
    (List.replicate 5000 'a').length = 5000
    ∧ (chunksOf (List.replicate 5000 'a')).map List.length = [1900, 1900, 1200] :=
  ⟨by rw [List.length_replicate],
    (ai_chunking_5000 Backend.chatgpt _ (by rw [List.length_replicate])).2.1⟩

/-- Discriminator for followup events. -/
def isFollowup : AIEvent → Bool
  | AIEvent.followup _ => true
  | _ => false

/-- Evaluation of `ai_command` on the fully validated path: recognised
selector, admission granted, backend available.  The outcome is the deferred
acknowledgment, the provider call, and the followup messages determined by the
provider's answer; the stored timestamps are those written by the admission
check. -/
theorem ai_command_valid_eval (oc gk : Bool) (st : List ℚ) (now : ℚ)
    (ai_model : List Char) (b : Backend)
    (res : Backend → Except (List Char) (List Char))
    (hm : ai_model.map Char.toLower = selectorOf b)
    (hs : (check_spam st AI_TIME_WINDOW AI_MESSAGE_LIMIT now).2 = false)
    (ha : availableOf oc gk b = true) :
    ai_command oc gk st now ai_model res
      = (match res b with
         | Except.ok text =>
           ([AIEvent.ack, AIEvent.invoke b]
             ++ (successMessages b text).map AIEvent.followup,
            (check_spam st AI_TIME_WINDOW AI_MESSAGE_LIMIT now).1)
         | Except.error e =>
           ([AIEvent.ack, AIEvent.invoke b, AIEvent.followup (errMsgOf b e)],
            (check_spam st AI_TIME_WINDOW AI_MESSAGE_LIMIT now).1)) := by
  cases b with
  | chatgpt =>
    simp only [selectorOf] at hm
    simp only [availableOf] at ha
    simp only [ai_command, hm, hs, ha]
    rw [if_neg (by decide)]
    rw [if_neg (by simp)]
    rw [if_neg (fun hcon => by simpa using hcon.2)]
    rw [if_neg (fun hcon => absurd hcon.1 (by decide))]
    simp only [if_true]
  | gemini =>
    simp only [selectorOf] at hm
    simp only [availableOf] at ha
    simp only [ai_command, hm, hs, ha]
    rw [if_neg (by decide)]
    rw [if_neg (by simp)]
    rw [if_neg (fun hcon => absurd hcon.1 (by decide))]
    rw [if_neg (fun hcon => by simpa using hcon.2)]
    rw [if_neg (by decide)]

/-- Claim C4: when the backend invocation raises, the dispatcher emits exactly
one followup chunk, which names the provider and carries a diagnostic
truncated to at most 100 characters; the stored AI timestamps are exactly
those written by the admission check (the admission timestamp `now` is still
there), so the failed call still consumes one slot of the rate budget. -/
theorem ai_command_backend_error (oc gk : Bool) (st : List ℚ) (now : ℚ)
    (ai_model e : List Char) (b : Backend)
    (res : Backend → Except (List Char) (List Char))
    (hm : ai_model.map Char.toLower = selectorOf b)
    (hs : (check_spam st AI_TIME_WINDOW AI_MESSAGE_LIMIT now).2 = false)
    (ha : availableOf oc gk b = true)
    (he : res b = Except.error e) :
    ai_command oc gk st now ai_model res
      = ([AIEvent.ack, AIEvent.invoke b, AIEvent.followup (errMsgOf b e)],
         (check_spam st AI_TIME_WINDOW AI_MESSAGE_LIMIT now).1)
    ∧ (ai_command oc gk st now ai_model res).1.countP isFollowup = 1
    ∧ titleOf b <:+: errMsgOf b e
    ∧ (e.take 100).length ≤ 100
    ∧ now ∈ (ai_command oc gk st now ai_model res).2 := by
  have hmain := ai_command_valid_eval oc gk st now ai_model b res hm hs ha
  rw [he] at hmain
  refine ⟨hmain, ?_, ?_, ?_, ?_⟩
  · rw [hmain]
    simp [isFollowup]
  · exact ⟨"⚠️ Error communicating with ".data, ": ".data ++ e.take 100,
      by simp [errMsgOf, List.append_assoc]⟩
  · rw [List.length_take]
    exact Nat.min_le_left _ _
  · rw [hmain]
    simp [check_spam]

/-- Witness for C4 at a concrete input: ChatGPT available, fresh user, and a
provider that raises with message boom. -/
theorem ai_command_backend_error_witness :
    ("ChatGPT".data.map Char.toLower = selectorOf Backend.chatgpt
      ∧ (check_spam [] AI_TIME_WINDOW AI_MESSAGE_LIMIT 0).2 = false
      ∧ availableOf true true Backend.chatgpt = true)
    ∧ ai_command true true [] 0 "ChatGPT".data
        (fun _ => Except.error "boom".data)
      = ([AIEvent.ack, AIEvent.invoke Backend.chatgpt,
          AIEvent.followup (errMsgOf Backend.chatgpt "boom".data)],
         (check_spam [] AI_TIME_WINDOW AI_MESSAGE_LIMIT 0).1) :=
  ⟨⟨by decide, rfl, rfl⟩,
    (ai_command_backend_error true true [] 0 "ChatGPT".data "boom".data
      Backend.chatgpt (fun _ => Except.error "boom".data)
      (by decide) rfl rfl rfl).1⟩

/-- Claim C5: an unrecognised backend selector (after lower-casing) produces
exactly one ephemeral error chunk and nothing else: the stored AI timestamps
are untouched, no deferred acknowledgment, no provider call, no followup, and
the outcome does not depend on the availability flags or on the provider
oracle. -/
theorem ai_command_invalid_model (oc gk : Bool) (st : List ℚ) (now : ℚ)
    (ai_model : List Char) (res : Backend → Except (List Char) (List Char))
    (h1 : ai_model.map Char.toLower ≠ "chatgpt".data)
    (h2 : ai_model.map Char.toLower ≠ "gemini".data) :
    ai_command oc gk st now ai_model res
      = ([AIEvent.sendEphemeral invalidModelMsg], st)
    ∧ (ai_command oc gk st now ai_model res).2 = st
    ∧ AIEvent.ack ∉ (ai_command oc gk st now ai_model res).1
    ∧ (∀ b, AIEvent.invoke b ∉ (ai_command oc gk st now ai_model res).1)
    ∧ (∀ msg, AIEvent.followup msg ∉ (ai_command oc gk st now ai_model res).1)
    ∧ (∀ (oc' gk' : Bool) res',
        ai_command oc' gk' st now ai_model res'
          = ai_command oc gk st now ai_model res) := by
  have hmain : ∀ (oc' gk' : Bool) res',
      ai_command oc' gk' st now ai_model res'
        = ([AIEvent.sendEphemeral invalidModelMsg], st) := by
    intro oc' gk' res'
    simp only [ai_command]
    rw [if_pos ⟨h1, h2⟩]
  refine ⟨hmain oc gk res, by rw [hmain oc gk res], ?_, ?_, ?_,
    fun oc' gk' res' => by rw [hmain oc' gk' res', hmain oc gk res]⟩
  · rw [hmain oc gk res]
    simp
  · intro b
    rw [hmain oc gk res]
    simp
  · intro msg
    rw [hmain oc gk res]
    simp

/-- Witness for C5 at a concrete input: the selector claude. -/
theorem ai_command_invalid_model_witness :
    ("claude".data.map Char.toLower ≠ "chatgpt".data
      ∧ "claude".data.map Char.toLower ≠ "gemini".data)
    ∧ ai_command true true [] 0 "claude".data (fun _ => Except.ok [])
        = ([AIEvent.sendEphemeral invalidModelMsg], []) :=
  ⟨⟨by decide, by decide⟩,
    (ai_command_invalid_model true true [] 0 "claude".data
      (fun _ => Except.ok []) (by decide) (by decide)).1⟩

/-- Claim C6: a validated, admitted request for a backend whose credential was
missing at startup yields exactly one ephemeral chunk naming that backend as
unavailable; no backend is invoked and the outcome does not depend on the
provider oracle. -/
theorem ai_command_unavailable (oc gk : Bool) (st : List ℚ) (now : ℚ)
    (ai_model : List Char) (b : Backend)
    (res : Backend → Except (List Char) (List Char))
    (hm : ai_model.map Char.toLower = selectorOf b)
    (hs : (check_spam st AI_TIME_WINDOW AI_MESSAGE_LIMIT now).2 = false)
    (ha : availableOf oc gk b = false) :
    ai_command oc gk st now ai_model res
      = ([AIEvent.sendEphemeral (unavailMsgOf b)],
         (check_spam st AI_TIME_WINDOW AI_MESSAGE_LIMIT now).1)
    ∧ displayNameOf b <:+: unavailMsgOf b
    ∧ (∀ b', AIEvent.invoke b' ∉ (ai_command oc gk st now ai_model res).1)
    ∧ (∀ res', ai_command oc gk st now ai_model res'
         = ai_command oc gk st now ai_model res) := by
  have hmain : ∀ res',
      ai_command oc gk st now ai_model res'
        = ([AIEvent.sendEphemeral (unavailMsgOf b)],
           (check_spam st AI_TIME_WINDOW AI_MESSAGE_LIMIT now).1) := by
    intro res'
    cases b with
    | chatgpt =>
      simp only [selectorOf] at hm
      simp only [availableOf] at ha
      simp only [ai_command, hm, hs, ha]
      rw [if_neg (by decide)]
      rw [if_neg (by simp)]
      rw [if_pos (by simp)]
    | gemini =>
      simp only [selectorOf] at hm
      simp only [availableOf] at ha
      simp only [ai_command, hm, hs, ha]
      rw [if_neg (by decide)]
      rw [if_neg (by simp)]
      rw [if_neg (fun hcon => absurd hcon.1 (by decide))]
      rw [if_pos (by simp)]
  refine ⟨hmain res, ?_, ?_, fun res' => by rw [hmain res', hmain res]⟩
  · exact ⟨"❌ ".data, " is not available (API key missing).".data, rfl⟩
  · intro b'
    rw [hmain res]
    simp

/-- Witness for C6 at a concrete input: ChatGPT selected while its credential
is missing. -/
theorem ai_command_unavailable_witness :
    ("chatgpt".data.map Char.toLower = selectorOf Backend.chatgpt
      ∧ (check_spam [] AI_TIME_WINDOW AI_MESSAGE_LIMIT 0).2 = false
      ∧ availableOf false true Backend.chatgpt = false)
    ∧ ai_command false true [] 0 "chatgpt".data (fun _ => Except.ok [])
        = ([AIEvent.sendEphemeral (unavailMsgOf Backend.chatgpt)],
           (check_spam [] AI_TIME_WINDOW AI_MESSAGE_LIMIT 0).1) :=
  ⟨⟨by decide, rfl, rfl⟩,
    (ai_command_unavailable false true [] 0 "chatgpt".data Backend.chatgpt
      (fun _ => Except.ok []) (by decide) rfl rfl).1⟩

/-- Discord-visible effects of one inbound message (`on_message`,
`main.py` lines 127-171): the transient anti-spam warning reply
(`delete_after=5`), the audit-log embed sent to the logs channel, and the
handoff to the command router (`bot.process_commands`). -/
inductive MsgEvent
  | warnReject
  | auditLog
  | commandDispatch
deriving DecidableEq

/-- The `on_message` handler (`main.py` lines 127-171) as a pure function.
Inputs: whether the author is a bot account, whether the message is in a
guild, whether a logs channel could be obtained, the author's stored flood
timestamps `user_message_times[message.author.id]`, and the current time.
Output: the ordered event list and the author's stored flood timestamp list
afterwards. -/
def on_message (authorIsBot inGuild logChannelOk : Bool) (st : List ℚ)
    (now : ℚ) : List MsgEvent × List ℚ :=
  if authorIsBot then
    ([], st)
  else
    let r := check_spam st SPAM_TIME_WINDOW SPAM_MESSAGE_LIMIT now
    if r.2 then
      ([MsgEvent.warnReject], r.1)
    else
      ((if inGuild && logChannelOk then [MsgEvent.auditLog] else [])
        ++ [MsgEvent.commandDispatch], r.1)

/-- Claim C9: a non-bot message rejected by the message-flood limiter gets
only the transient warning; no audit-log entry is produced and the message is
never handed to the command router. -/
theorem on_message_rejected (inGuild logChannelOk : Bool) (st : List ℚ)
    (now : ℚ)
    (hs : (check_spam st SPAM_TIME_WINDOW SPAM_MESSAGE_LIMIT now).2 = true) :
    on_message false inGuild logChannelOk st now
      = ([MsgEvent.warnReject],
         (check_spam st SPAM_TIME_WINDOW SPAM_MESSAGE_LIMIT now).1)
    ∧ MsgEvent.auditLog ∉ (on_message false inGuild logChannelOk st now).1
    ∧ MsgEvent.commandDispatch
        ∉ (on_message false inGuild logChannelOk st now).1 := by
  have hmain : on_message false inGuild logChannelOk st now
      = ([MsgEvent.warnReject],
         (check_spam st SPAM_TIME_WINDOW SPAM_MESSAGE_LIMIT now).1) := by
    simp only [on_message, hs]
    rw [if_neg (by simp), if_pos trivial]
  refine ⟨hmain, ?_, ?_⟩
  · rw [hmain]
    simp
  · rw [hmain]
    simp

/-- Witness for C9 at a concrete input: five stored timestamps at time 0 and
a sixth message at time 0 trips the limiter. -/
theorem on_message_rejected_witness :
    (check_spam [(0 : ℚ), 0, 0, 0, 0] SPAM_TIME_WINDOW SPAM_MESSAGE_LIMIT 0).2
        = true
    ∧ on_message false true true [(0 : ℚ), 0, 0, 0, 0] 0
        = ([MsgEvent.warnReject],
           (check_spam [(0 : ℚ), 0, 0, 0, 0] SPAM_TIME_WINDOW
              SPAM_MESSAGE_LIMIT 0).1) :=
  ⟨by norm_num [check_spam, SPAM_TIME_WINDOW, SPAM_MESSAGE_LIMIT],
    (on_message_rejected true true [(0 : ℚ), 0, 0, 0, 0] 0
      (by norm_num [check_spam, SPAM_TIME_WINDOW, SPAM_MESSAGE_LIMIT])).1⟩

/-- Claim C10: a message authored by a bot account bypasses the ingress gate
entirely, whatever the author's stored flood history: no event is emitted (no
warning, no audit log, no command dispatch) and the stored flood timestamps
are returned unchanged, so the limiter is never consulted. -/
theorem on_message_bot_bypass (inGuild logChannelOk : Bool) (st : List ℚ)
    (now : ℚ) :
    on_message true inGuild logChannelOk st now = ([], st)
    ∧ (on_message true inGuild logChannelOk st now).1 = []
    ∧ (on_message true inGuild logChannelOk st now).2 = st := by
  refine ⟨rfl, rfl, rfl⟩
